import Mathlib

/-!
Verification development for the evaluation core of the swahili scripting
language (repository scripttie/swahili).  The embedding below is a shallow
translation of `src/bin/interpreter/types/base-function.js`, which contains
(as concatenated related documents) the `SWValue` base class, the
`Interpreter` tree-walker together with its inline `SWBaseFunction` /
`SWFunction` / `SWBuiltInFunction` classes, and a newer standalone
base-function module whose `populateArgs` binds the hidden `__hoja`
parameter.

Modelling conventions:
* JavaScript objects that are mutated in place (symbol tables, contexts) live
  in an explicit `Store`; tables and contexts are addressed by `Nat` ids.
* Runtime values are immutable Lean data; `copy()` is therefore the identity
  and `setPosition` / `setContext` are functional updates.  This is faithful
  for every observable the claims mention, because every read path in the
  source either copies the value or only inspects its payload.
* Number payloads are modelled as `Int`.  Every concrete program exercised by
  the claims stays inside the range where IEEE-754 doubles are exact.
* A thrown host exception (TypeError on a null dereference, ReferenceError on
  an undefined name, or an engine-level infinite loop) is modelled by the
  distinguished outcome `Outcome.crash`: it is not an `RTResult` error.
* Host I/O built-ins (`andika`, `soma`, `somaNambari`, `futa`) perform
  side effects on stdout/stdin; their handlers are outside every claim and
  are mapped to the host-effect marker `Outcome.crash` as well.
-/

/-- Token types consumed by `visitUnaryOpNode` (from `tokenTypes.js`, whose
lexeme-level counterpart is `src/swh/lexemes.js`).  Only the two tags the
unary visitor inspects are needed. -/
inductive TT where
  | MINUS
  | NOT
deriving DecidableEq, Repr

/-- AST node variants recognised by the interpreter, with the fields each
visitor reads.  Parser-produced nodes always carry positions, modelled as
opaque `Nat` tokens. -/
inductive Node where
  | numberNode (value : Int) (posStart posEnd : Nat)
  | stringNode (value : String) (posStart posEnd : Nat)
  | listNode (elementNodes : List Node) (posStart posEnd : Nat)
  | varAccessNode (varName : String) (posStart posEnd : Nat)
  | varAssignNode (varName : String) (valueNode : Node) (posStart posEnd : Nat)
  | unaryOpNode (opTok : TT) (node : Node) (posStart posEnd : Nat)
  | ifNode (cases : List (Node × Node)) (elseCase : Option Node) (posStart posEnd : Nat)
  | forNode (varName : String) (startValueNode endValueNode : Node)
      (stepValueNode : Option Node) (bodyNode : Node) (posStart posEnd : Nat)
  | whileNode (conditionNode bodyNode : Node) (posStart posEnd : Nat)
  | funcDefNode (varName : Option String) (argNames : List String) (bodyNode : Node)
      (posStart posEnd : Nat)
  | callNode (nodeToCall : Node) (argNodes : List Node) (posStart posEnd : Nat)
deriving Repr

mutual
/-- Runtime value: the common `SWValue` fields (`posStart`, `posEnd`,
`context`) plus the variant payload.  `context` is a `Context` id into the
store. -/
inductive SWVal where
  | mk (posStart posEnd : Option Nat) (context : Option Nat) (payload : SWPayload)
/-- Payload of each value class.  List elements are `Option SWVal` because the
JS code pushes the result of `res.register(...)` into element arrays, which is
`null` whenever the registered result was `success(null)`. -/
inductive SWPayload where
  | number (value : Int)
  | str (value : String)
  | boolean (value : Bool)
  | list (elements : List (Option SWVal))
  | null
  | func (name : String) (bodyNode : Node) (argNames : List String)
  | builtin (name : String)
end

/-- Payload projection. -/
def SWVal.payload : SWVal → SWPayload
  | .mk _ _ _ p => p

/-- Start-position projection. -/
def SWVal.posStart : SWVal → Option Nat
  | .mk ps _ _ _ => ps

/-- End-position projection. -/
def SWVal.posEnd : SWVal → Option Nat
  | .mk _ pe _ _ => pe

/-- Context projection. -/
def SWVal.context : SWVal → Option Nat
  | .mk _ _ c _ => c

/-- Functional counterpart of `SWValue.setPosition`. -/
def SWVal.setPosition (v : SWVal) (posStart posEnd : Option Nat) : SWVal :=
  match v with
  | .mk _ _ c p => .mk posStart posEnd c p

/-- Functional counterpart of `SWValue.setContext`. -/
def SWVal.setContext (v : SWVal) (context : Option Nat) : SWVal :=
  match v with
  | .mk ps pe _ p => .mk ps pe context p

/-- Shallow copy.  Each concrete class's `copy()` rebuilds a value with the
same payload and then restores `posStart`/`posEnd`/`context`; in the immutable
model that is the identity. -/
def SWVal.copy (v : SWVal) : SWVal := v

/-- Truthiness.  The base `SWValue.isTrue` returns `false`; the Number,
String, Boolean, List and Null subclasses (files not present in the
repository snapshot) are modelled from the spec table in section 3.  The
`SWBaseFunction` class of the interpreter file extends `SWValue` and never
overrides `isTrue`, so both function variants fall through to the base
`false`. -/
def SWVal.isTrue (v : SWVal) : Bool :=
  match v.payload with
  | .number n => n != 0
  | .str s => s.length > 0
  | .boolean b => b
  | .list l => l.length > 0
  | .null => false
  | .func _ _ _ => false
  | .builtin _ => false

/-- Runtime error as constructed throughout the interpreter:
`new RTError(posStart, posEnd, message, context)`. -/
structure RTError where
  posStart : Option Nat
  posEnd : Option Nat
  message : String
  context : Option Nat
deriving Repr

/-- Unsupported-operation error from `SWValue.illegalOperation`: when no
operand is supplied, `other` defaults to the value itself. -/
def SWVal.illegalOperation (v : SWVal) (other : Option SWVal) : RTError :=
  let o := other.getD v
  ⟨v.posStart, o.posEnd, "Illegal operation", v.context⟩

/-- Result of a value-level operation: the JS `[value, error]` pair, or a
thrown host exception. -/
inductive OpResult where
  | pair (value : Option SWVal) (error : Option RTError)
  | crash

/-- Unary logical negation.  The Number/String/Boolean/List/Null subclasses
are modelled from the spec (section 4.1: Boolean of the negated truthiness;
only the payload of the produced Boolean is specified, so position and
context are left unset).  Function values have no override, so the base
`SWValue.notted` runs: its body is
`return [null, this.illegalOperation(other)];` where `other` is not a name in
scope, so the call throws a ReferenceError — modelled as `OpResult.crash`. -/
def SWVal.notted (v : SWVal) : OpResult :=
  match v.payload with
  | .func _ _ _ => .crash
  | .builtin _ => .crash
  | _ => .pair (some (.mk none none none (.boolean (!v.isTrue)))) none

/-- Multiplication, used by `visitUnaryOpNode` for unary minus.  The
Number-by-Number case is modelled from the spec (section 4.1); every value
class without an override falls back to the base `SWValue.multedBy`, which
returns `[null, this.illegalOperation(other)]`.  Of the combinations the
claims reach, only Number-by-Number and the base fallback occur. -/
def SWVal.multedBy (v other : SWVal) : OpResult :=
  match v.payload, other.payload with
  | .number a, .number b => .pair (some (.mk none none none (.number (a * b)))) none
  | _, _ => .pair none (some (v.illegalOperation (some other)))

/-- Modelled from the spec: `symbolTable.js` is not in the repository
snapshot.  A symbol table is a name-to-value mapping with an optional parent
(section 3); the mapping stores `Option SWVal` because the interpreter can
`set` a name to the `null` result of a registered sub-evaluation. -/
structure SymbolTable where
  parent : Option Nat
  symbols : List (String × Option SWVal)

/-- Modelled from the spec: `context.js` is not in the repository snapshot.
A context is `new Context(displayName, parentContext, entryPosition)` plus a
`symbolTable` assigned right after construction (section 3). -/
structure Context where
  displayName : String
  parent : Option Nat
  entryPos : Option Nat
  symbolTable : Nat

/-- Mutable heap for the interpreter run: symbol tables and contexts are
allocated by appending, so an id is an index that stays valid forever. -/
structure Store where
  tables : List SymbolTable
  contexts : List Context

/-- Update-or-append a binding, matching JS `Map.set`: an existing key keeps
its position, a new key is appended. -/
def SymbolTable.setSym (t : SymbolTable) (name : String) (v : Option SWVal) : SymbolTable :=
  if t.symbols.any (fun p => p.1 == name) then
    { t with symbols := t.symbols.map (fun p => if p.1 == name then (name, v) else p) }
  else
    { t with symbols := t.symbols ++ [(name, v)] }

/-- Set a binding in the table with id `tid` (current level only, per
`SymbolTable.set`). -/
def Store.setVar (st : Store) (tid : Nat) (name : String) (v : Option SWVal) : Store :=
  match st.tables[tid]? with
  | none => st
  | some t => { st with tables := st.tables.set tid (t.setSym name v) }

/-- Chained lookup along the parent pointers (`SymbolTable.get`).  The fuel
argument bounds the chain walk; callers pass the table count, which any
acyclic chain cannot exceed.  The outer `Option` is presence of a binding,
the inner one is the stored (possibly null) value. -/
def Store.getSym (st : Store) : Nat → Nat → String → Option (Option SWVal)
  | 0, _, _ => none
  | fuel + 1, tid, name =>
    match st.tables[tid]? with
    | none => none
    | some t =>
      match t.symbols.find? (fun p => p.1 == name) with
      | some p => some p.2
      | none =>
        match t.parent with
        | some pid => st.getSym fuel pid name
        | none => none

/-- Lookup restricted to one table, ignoring the parent chain.  Used to state
facts about a context's own scope. -/
def Store.getOwn (st : Store) (tid : Nat) (name : String) : Option (Option SWVal) :=
  match st.tables[tid]? with
  | none => none
  | some t => (t.symbols.find? (fun p => p.1 == name)).map (fun p => p.2)

/-- Allocate a fresh symbol table; returns its id. -/
def Store.newTable (st : Store) (parent : Option Nat) : Nat × Store :=
  (st.tables.length, { st with tables := st.tables ++ [⟨parent, []⟩] })

/-- Allocate a fresh context; returns its id. -/
def Store.newContext (st : Store) (c : Context) : Nat × Store :=
  (st.contexts.length, { st with contexts := st.contexts ++ [c] })

/-- Result carried by an `RTResult` when a visitor returns: either
`success(value)` (the value may be null) or `failure(error)`. -/
inductive Res where
  | ok (value : Option SWVal)
  | err (e : RTError)

/-- Outcome of one evaluation: the final store with the `RTResult`, or a
thrown host exception / engine divergence. -/
inductive Outcome where
  | ret (st : Store) (r : Res)
  | crash

/-- Final store of an outcome, if the evaluation returned. -/
def Outcome.store? : Outcome → Option Store
  | .ret st _ => some st
  | .crash => none

/-- Final success value of an outcome, if the evaluation returned one. -/
def Outcome.value? : Outcome → Option (Option SWVal)
  | .ret _ (.ok v) => some v
  | _ => none

/-- Final error of an outcome, if the evaluation failed with an `RTError`. -/
def Outcome.error? : Outcome → Option RTError
  | .ret _ (.err e) => some e
  | _ => none

/-- Name of a function value (`this.name`); the constructor substitutes
`<isiyotambuliwa>` when no name is given. -/
def SWVal.fnName : SWVal → String
  | .mk _ _ _ (.func name _ _) => name
  | .mk _ _ _ (.builtin name) => name
  | _ => "<isiyotambuliwa>"

/-- The interpreter object.  Its constructor sets `maxCallStackSize`, the
maximum number of calls to a loop that will run before being forcefully
terminated, to 10000. -/
structure Interpreter where
  maxCallStackSize : Nat

/-- Counterpart of `new Interpreter()`. -/
def Interpreter.new : Interpreter := ⟨10000⟩

/-- Counterpart of `SWBaseFunction.generateNewContext` in the interpreter
file: `new Context(this.name, this.context, this.posStart)` followed by
`newContext.symbolTable = new SymbolTable(newContext.parent.symbolTable)`.
When the function value's `context` is null (or dangling, which never occurs
in a run), the `newContext.parent.symbolTable` dereference throws — `none`.
Returns the new context id and the grown store; the fresh table's parent is
the symbol table of the value's `context`. -/
def SWBaseFunction.generateNewContext (fv : SWVal) (st : Store) : Option (Nat × Store) :=
  match fv.context with
  | none => none
  | some c =>
    match st.contexts[c]? with
    | none => none
    | some parentCtx =>
      let (tid, st1) := st.newTable (some parentCtx.symbolTable)
      let (cid, st2) := st1.newContext ⟨fv.fnName, some c, fv.posStart, tid⟩
      some (cid, st2)

/-- Counterpart of `SWBaseFunction.checkArgs` in the interpreter file: too
many / too few argument errors, positioned at the callee value and naming the
function. -/
def SWBaseFunction.checkArgs (fv : SWVal) (argNames : List String)
    (args : List (Option SWVal)) : Option RTError :=
  if argNames.length < args.length then
    some ⟨fv.posStart, fv.posEnd,
      toString (args.length - argNames.length) ++ " too many args passed into " ++ fv.fnName,
      fv.context⟩
  else if args.length < argNames.length then
    some ⟨fv.posStart, fv.posEnd,
      toString (argNames.length - args.length) ++ " too few args passed into " ++ fv.fnName,
      fv.context⟩
  else none

/-- Counterpart of `SWBaseFunction.populateArgs` in the interpreter file: for
each index below `args.length`, set the argument's context to the execution
context and bind it under `argNames[i]` in the execution context's symbol
table.  This version binds nothing else — in particular no `__hoja`.  A null
argument value makes `argValue.setContext` throw (`none`); the case of more
arguments than names cannot be reached behind `checkArgs` and is mapped to
`none` as well (the source would set a binding under an undefined key). -/
def SWBaseFunction.populateArgs : List String → List (Option SWVal) → Nat → Nat → Store →
    Option Store
  | _, [], _, _, st => some st
  | [], _ :: _, _, _, _ => none
  | an :: ans, a :: rest, ec, tid, st =>
    match a with
    | none => none
    | some v =>
      SWBaseFunction.populateArgs ans rest ec tid
        (st.setVar tid an (some (v.setContext (some ec))))

/-- Declared parameter lists of the built-in functions (the per-instance
fields `andika = ['value']`, ..., `idadi = ['value']`). -/
def builtinParams : String → Option (List String)
  | "andika" => some ["value"]
  | "soma" => some ["message"]
  | "somaNambari" => some ["message"]
  | "futa" => some []
  | "niNambari" => some ["value"]
  | "niJina" => some ["value"]
  | "niOrodha" => some ["value"]
  | "niShughuli" => some ["value"]
  | "idadi" => some ["value"]
  | _ => none

/-- Counterpart of `SWBuiltInFunction.execute_idadi`: length of a String (its
code-unit count) or List (its element count); any other value fails with a
TypeError-style `RTError` at the value's position. -/
def SWBuiltInFunction.execute_idadi (executionContext : Nat) (st : Store) : Outcome :=
  match st.contexts[executionContext]? with
  | none => .crash
  | some cr =>
    match st.getSym st.tables.length cr.symbolTable "value" with
    | none => .crash
    | some none => .crash
    | some (some v) =>
      match v.payload with
      | .str s => .ret st (.ok (some (.mk none none none (.number s.length))))
      | .list l => .ret st (.ok (some (.mk none none none (.number l.length))))
      | _ => .ret st (.err ⟨v.posStart, v.posEnd,
          "Cannot find length of non-iterable value", some executionContext⟩)

/-- Shared shape of the four type-checking built-ins: look up `value` and
test its class, yielding `SWBoolean.TRUE` or `SWBoolean.FALSE` (the Boolean
class file is not in the snapshot; the static constants are modelled from the
spec as plain Boolean values). -/
def SWBuiltInFunction.typeCheck (test : SWPayload → Bool) (executionContext : Nat)
    (st : Store) : Outcome :=
  match st.contexts[executionContext]? with
  | none => .crash
  | some cr =>
    let holds :=
      match st.getSym st.tables.length cr.symbolTable "value" with
      | some (some v) => test v.payload
      | _ => false
    .ret st (.ok (some (.mk none none none (.boolean holds))))

/-- Dispatch of `execute_${this.name}`.  The pure handlers are modelled; the
host-I/O handlers (`andika`, `soma`, `somaNambari`, `futa`) act on
stdout/stdin and are outside every claim, so they map to the host-effect
marker `crash`, as does the `noExecuteMethod` throw for unknown names. -/
def SWBuiltInFunction.runMethod (name : String) (executionContext : Nat) (st : Store) :
    Outcome :=
  match name with
  | "idadi" => SWBuiltInFunction.execute_idadi executionContext st
  | "niNambari" =>
    SWBuiltInFunction.typeCheck
      (fun p => match p with | .number _ => true | _ => false) executionContext st
  | "niJina" =>
    SWBuiltInFunction.typeCheck
      (fun p => match p with | .str _ => true | _ => false) executionContext st
  | "niOrodha" =>
    SWBuiltInFunction.typeCheck
      (fun p => match p with | .list _ => true | _ => false) executionContext st
  | "niShughuli" =>
    SWBuiltInFunction.typeCheck
      (fun p => match p with | .func _ _ _ => true | .builtin _ => true | _ => false)
      executionContext st
  | _ => .crash

/-- Counterpart of `SWBuiltInFunction.execute`: build the execution context,
fetch the declared parameter list, check and populate the arguments, then run
the registered handler. -/
def SWBuiltInFunction.execute (fv : SWVal) (args : List (Option SWVal)) (st : Store) :
    Outcome :=
  match fv.payload with
  | .builtin name =>
    match SWBaseFunction.generateNewContext fv st with
    | none => .crash
    | some (ec, st1) =>
      match builtinParams name with
      | none => .crash
      | some argNames =>
        match SWBaseFunction.checkArgs fv argNames args with
        | some e => .ret st1 (.err e)
        | none =>
          match st1.contexts[ec]? with
          | none => .crash
          | some ecr =>
            match SWBaseFunction.populateArgs argNames args ec ecr.symbolTable st1 with
            | none => .crash
            | some st2 =>
              match SWBuiltInFunction.runMethod name ec st2 with
              | .crash => .crash
              | .ret st3 (.err e) => .ret st3 (.err e)
              | .ret st3 (.ok rv) => .ret st3 (.ok rv)
  | _ => .crash

/-- Counterpart of `SWFunction.execute`: construct `const INT = new
Interpreter()`, build the execution context, check and populate the
arguments, then visit the body node under `INT` in the execution context.
The visitor is passed in as a function so that the definition can sit below
`visit` in the recursion; the source point is that the interpreter instance
used for the body is always the freshly constructed one. -/
def SWFunction.execute (visitF : Interpreter → Node → Nat → Store → Outcome)
    (fv : SWVal) (args : List (Option SWVal)) (st : Store) : Outcome :=
  match fv.payload with
  | .func _ bodyNode argNames =>
    match SWBaseFunction.generateNewContext fv st with
    | none => .crash
    | some (ec, st1) =>
      match SWBaseFunction.checkArgs fv argNames args with
      | some e => .ret st1 (.err e)
      | none =>
        match st1.contexts[ec]? with
        | none => .crash
        | some ecr =>
          match SWBaseFunction.populateArgs argNames args ec ecr.symbolTable st1 with
          | none => .crash
          | some st2 =>
            match visitF Interpreter.new bodyNode ec st2 with
            | .crash => .crash
            | .ret st3 (.err e) => .ret st3 (.err e)
            | .ret st3 (.ok v) => .ret st3 (.ok v)
  | _ => .crash

/-- Result of evaluating a sequence of nodes (list elements or call
arguments): the collected registered values, or the first error, or a host
exception. -/
inductive SeqOut where
  | vals (st : Store) (vs : List (Option SWVal))
  | errs (st : Store) (e : RTError)
  | crash

/-- Evaluate nodes left to right, pushing each registered value and returning
at the first error — the shared shape of `visitListNode`'s element loop and
`visitCallNode`'s argument loop. -/
def evalNodes (ev : Node → Store → Outcome) : List Node → Store → SeqOut
  | [], st => .vals st []
  | n :: rest, st =>
    match ev n st with
    | .crash => .crash
    | .ret st1 (.err e) => .errs st1 e
    | .ret st1 (.ok v) =>
      match evalNodes ev rest st1 with
      | .vals st2 vs => .vals st2 (v :: vs)
      | other => other

/-- Case loop of `visitIfNode`: evaluate conditions in order, run the body of
the first truthy one, otherwise the else case, otherwise `success(null)`.  A
condition that registers as null crashes on `conditionValue.isTrue()`. -/
def evalCases (ev : Node → Store → Outcome) : List (Node × Node) → Option Node → Store →
    Outcome
  | [], elseCase, st =>
    match elseCase with
    | some e =>
      match ev e st with
      | .crash => .crash
      | .ret st1 (.err er) => .ret st1 (.err er)
      | .ret st1 (.ok v) => .ret st1 (.ok v)
    | none => .ret st (.ok none)
  | (c, ex) :: rest, elseCase, st =>
    match ev c st with
    | .crash => .crash
    | .ret st1 (.err er) => .ret st1 (.err er)
    | .ret _ (.ok none) => .crash
    | .ret st1 (.ok (some cv)) =>
      if cv.isTrue then
        match ev ex st1 with
        | .crash => .crash
        | .ret st2 (.err er) => .ret st2 (.err er)
        | .ret st2 (.ok v) => .ret st2 (.ok v)
      else evalCases ev rest elseCase st1

/-- Iteration loop of `visitForNode`.  `remaining` counts down from
`maxCallStackSize`; the source increments `calls` after each body evaluation
and fails with the call-stack error exactly when it reaches the maximum,
which corresponds to `remaining = 1` here.  `iterFuel` is a modelling
artifact bounding the recursion: exhausting it (possible only when the
maximum is 0, where the source loops forever) is engine divergence. -/
def loopFor (cond : Int → Bool) (stepValue : Int) (setVar : Int → Store → Store)
    (bodyEval : Store → Outcome) (success : List (Option SWVal) → Store → Outcome)
    (failErr : RTError) : Nat → Nat → Int → List (Option SWVal) → Store → Outcome
  | 0, _, _, _, _ => .crash
  | iterFuel + 1, remaining, i, elements, st =>
    if cond i then
      let st1 := setVar i st
      match bodyEval st1 with
      | .crash => .crash
      | .ret st2 (.err e) => .ret st2 (.err e)
      | .ret st2 (.ok v) =>
        if remaining = 1 then .ret st2 (.err failErr)
        else
          loopFor cond stepValue setVar bodyEval success failErr iterFuel
            (remaining - 1) (i + stepValue) (elements ++ [v]) st2
    else success elements st

/-- Iteration loop of `visitWhileNode`, with the same counter discipline as
`loopFor`.  A condition that registers as null crashes on
`condition.isTrue()`. -/
def loopWhile (condEval bodyEval : Store → Outcome)
    (success : List (Option SWVal) → Store → Outcome)
    (failErr : RTError) : Nat → Nat → List (Option SWVal) → Store → Outcome
  | 0, _, _, _ => .crash
  | iterFuel + 1, remaining, elements, st =>
    match condEval st with
    | .crash => .crash
    | .ret st1 (.err e) => .ret st1 (.err e)
    | .ret _ (.ok none) => .crash
    | .ret st1 (.ok (some c)) =>
      if !c.isTrue then success elements st1
      else
        match bodyEval st1 with
        | .crash => .crash
        | .ret st2 (.err e) => .ret st2 (.err e)
        | .ret st2 (.ok v) =>
          if remaining = 1 then .ret st2 (.err failErr)
          else
            loopWhile condEval bodyEval success failErr iterFuel
              (remaining - 1) (elements ++ [v]) st2

/-- Tree-walking evaluator `Interpreter.visit`.  The `fuel` argument models
the host call stack: every recursive visit consumes one unit, and running out
is a host-level stack overflow (`crash`).  Each branch follows the
corresponding `visit<NodeType>` method of the source; the context record is
only dereferenced where the source reads `context.symbolTable`. -/
def visit : Interpreter → Nat → Node → Nat → Store → Outcome
  | _, 0, _, _, _ => .crash
  | I, fuel + 1, node, ctxId, st =>
    match node with
    | .numberNode v ps pe =>
      .ret st (.ok (some (.mk (some ps) (some pe) (some ctxId) (.number v))))
    | .stringNode s ps pe =>
      .ret st (.ok (some (.mk (some ps) (some pe) (some ctxId) (.str s))))
    | .listNode elems ps pe =>
      match evalNodes (fun n s => visit I fuel n ctxId s) elems st with
      | .crash => .crash
      | .errs st1 e => .ret st1 (.err e)
      | .vals st1 vs =>
        .ret st1 (.ok (some (.mk (some ps) (some pe) (some ctxId) (.list vs))))
    | .varAccessNode name ps pe =>
      match st.contexts[ctxId]? with
      | none => .crash
      | some ctxRec =>
        match st.getSym st.tables.length ctxRec.symbolTable name with
        | some (some v) =>
          .ret st (.ok (some ((v.copy.setPosition (some ps) (some pe)).setContext
            (some ctxId))))
        | _ =>
          .ret st (.err ⟨some ps, some pe,
            "\x27" ++ name ++ "\x27 is not defined", some ctxId⟩)
    | .varAssignNode name valueNode _ _ =>
      match visit I fuel valueNode ctxId st with
      | .crash => .crash
      | .ret st1 (.err e) => .ret st1 (.err e)
      | .ret st1 (.ok v) =>
        match st1.contexts[ctxId]? with
        | none => .crash
        | some ctxRec => .ret (st1.setVar ctxRec.symbolTable name v) (.ok v)
    | .unaryOpNode op sub ps pe =>
      match visit I fuel sub ctxId st with
      | .crash => .crash
      | .ret st1 (.err e) => .ret st1 (.err e)
      | .ret _ (.ok none) => .crash
      | .ret st1 (.ok (some v)) =>
        let opOut :=
          match op with
          | .NOT => v.notted
          | .MINUS => v.multedBy (.mk none none none (.number (-1)))
        match opOut with
        | .crash => .crash
        | .pair _ (some e) => .ret st1 (.err e)
        | .pair (some r) none =>
          .ret st1 (.ok (some (r.setPosition (some ps) (some pe))))
        | .pair none none => .crash
    | .ifNode cases elseCase _ _ =>
      evalCases (fun n s => visit I fuel n ctxId s) cases elseCase st
    | .forNode varName startN endN stepN bodyN ps pe =>
      match visit I fuel startN ctxId st with
      | .crash => .crash
      | .ret st1 (.err e) => .ret st1 (.err e)
      | .ret st1 (.ok startV) =>
        match visit I fuel endN ctxId st1 with
        | .crash => .crash
        | .ret st2 (.err e) => .ret st2 (.err e)
        | .ret st2 (.ok endV) =>
          let afterStep : Option (Store × Int) :=
            match stepN with
            | none => some (st2, 1)
            | some stepNode =>
              match visit I fuel stepNode ctxId st2 with
              | .crash => none
              | .ret _ (.err _) => none
              | .ret st3 (.ok vo) =>
                match vo with
                | none => none
                | some v =>
                  match v.payload with
                  | .number k => some (st3, k)
                  | _ => none
          match startV, endV with
          | some sv, some ev =>
            match sv.payload, ev.payload with
            | .number startI, .number endI =>
              match afterStep with
              | none => .crash
              | some (st3, stepI) =>
                match st3.contexts[ctxId]? with
                | none => .crash
                | some ctxRec =>
                  loopFor
                    (if stepI ≥ 0 then fun i => i < endI else fun i => i > endI)
                    stepI
                    (fun i s =>
                      s.setVar ctxRec.symbolTable varName
                        (some (.mk none none none (.number i))))
                    (fun s => visit I fuel bodyN ctxId s)
                    (fun elems s =>
                      .ret s (.ok (some (.mk (some ps) (some pe) (some ctxId)
                        (.list elems)))))
                    ⟨some ps, some pe, "Max call stack size exceeded", some ctxId⟩
                    (I.maxCallStackSize + 1) I.maxCallStackSize startI [] st3
            | _, _ => .crash
          | _, _ => .crash
    | .whileNode condN bodyN ps pe =>
      loopWhile (fun s => visit I fuel condN ctxId s) (fun s => visit I fuel bodyN ctxId s)
        (fun elems s =>
          .ret s (.ok (some (.mk (some ps) (some pe) (some ctxId) (.list elems)))))
        ⟨some ps, some pe, "Max call stack size exceeded", some ctxId⟩
        (I.maxCallStackSize + 1) I.maxCallStackSize [] st
    | .funcDefNode varName argNames bodyN ps pe =>
      let funcValue : SWVal :=
        .mk (some ps) (some pe) (some ctxId)
          (.func (varName.getD "<isiyotambuliwa>") bodyN argNames)
      match varName with
      | some n =>
        match st.contexts[ctxId]? with
        | none => .crash
        | some ctxRec =>
          .ret (st.setVar ctxRec.symbolTable n (some funcValue)) (.ok (some funcValue))
      | none => .ret st (.ok (some funcValue))
    | .callNode toCall argNodes ps pe =>
      match visit I fuel toCall ctxId st with
      | .crash => .crash
      | .ret st1 (.err e) => .ret st1 (.err e)
      | .ret _ (.ok none) => .crash
      | .ret st1 (.ok (some v0)) =>
        let valueToCall := v0.copy.setPosition (some ps) (some pe)
        match evalNodes (fun n s => visit I fuel n ctxId s) argNodes st1 with
        | .crash => .crash
        | .errs st2 e => .ret st2 (.err e)
        | .vals st2 args =>
          let callOut :=
            match valueToCall.payload with
            | .func _ _ _ =>
              SWFunction.execute (fun I2 n c s => visit I2 fuel n c s) valueToCall args st2
            | .builtin _ => SWBuiltInFunction.execute valueToCall args st2
            | _ => .ret st2 (.err (valueToCall.illegalOperation none))
          match callOut with
          | .crash => .crash
          | .ret st3 (.err e) => .ret st3 (.err e)
          | .ret st3 (.ok rv) =>
            match rv with
            | some r =>
              .ret st3 (.ok (some ((r.copy.setPosition (some ps) (some pe)).setContext
                (some ctxId))))
            | none => .ret st3 (.ok none)


namespace BaseFunctionTypes

/-- Static `SWNull.NULL` constant (the Null class file is not in the
snapshot; modelled from the spec as the null value). -/
def NULL : SWVal := .mk none none none .null

/-- Argument loop of `populateArgs` in the standalone base-function module
(the version of `SWBaseFunction` that extends `SWObject`): walk
`argNames`, take `args[i]` when present (falling back to `nullValue`), and
for each non-null value set its context to the execution context and bind it
in both the execution context's symbol table and the function's own
`this.symbolTable` (a field of the `SWObject` class, which is not in the
snapshot; it is passed here as the table id `fnTid`).  Returns the grown
store and `allArgs`, the values pushed for indices where `args[i]` was
non-null. -/
def popLoop : List String → List (Option SWVal) → Option SWVal → Nat → Nat → Nat →
    Store → Store × List SWVal
  | [], _, _, _, _, _, st => (st, [])
  | an :: ans, args, nullValue, ec, ecTid, fnTid, st =>
    let argValue := match args with | a :: _ => a | [] => nullValue
    match argValue with
    | none => popLoop ans args.tail nullValue ec ecTid fnTid st
    | some v =>
      let v2 := v.setContext (some ec)
      let st2 := (st.setVar ecTid an (some v2)).setVar fnTid an (some v2)
      let pushed := match args with | some _ :: _ => true | _ => false
      let (st3, rest) := popLoop ans args.tail nullValue ec ecTid fnTid st2
      (st3, (if pushed then [v2] else []) ++ rest)

/-- Counterpart of `SWBaseFunction.populateArgs` in the standalone
base-function module: after the argument loop, the remaining given arguments
(from index `allArgs.length` on) are appended to `allArgs` when non-null, and
the hidden parameter `__hoja` is bound to a fresh `SWList` of `allArgs` in
both the execution context's symbol table and the function's own table. -/
def populateArgs (argNames : List String) (args : List (Option SWVal))
    (executionContext : Nat) (ecTid fnTid : Nat) (nullType : Bool) (st : Store) : Store :=
  let nullValue := if nullType then some NULL else none
  let (st1, allArgs) := popLoop argNames args nullValue executionContext ecTid fnTid st
  let extras := (args.drop allArgs.length).filterMap id
  let hoja : SWVal := .mk none none none (.list ((allArgs ++ extras).map some))
  (st1.setVar ecTid "__hoja" (some hoja)).setVar fnTid "__hoja" (some hoja)

end BaseFunctionTypes

/-- Modelled from the spec: the CLI front-end (not in the snapshot) creates
the global context and pre-populates the root SymbolTable with every built-in
binding and the sentinel constants `kweli`, `uwongo`, `tupu` before any user
code runs (section 3 invariant).  Table 0 is the global table, context 0 the
global context. -/
def globalStore : Store :=
  { tables := [⟨none, [
      ("andika", some (.mk none none none (.builtin "andika"))),
      ("soma", some (.mk none none none (.builtin "soma"))),
      ("somaNambari", some (.mk none none none (.builtin "somaNambari"))),
      ("futa", some (.mk none none none (.builtin "futa"))),
      ("niNambari", some (.mk none none none (.builtin "niNambari"))),
      ("niJina", some (.mk none none none (.builtin "niJina"))),
      ("niOrodha", some (.mk none none none (.builtin "niOrodha"))),
      ("niShughuli", some (.mk none none none (.builtin "niShughuli"))),
      ("idadi", some (.mk none none none (.builtin "idadi"))),
      ("kweli", some (.mk none none none (.boolean true))),
      ("uwongo", some (.mk none none none (.boolean false))),
      ("tupu", some (.mk none none none .null))]⟩],
    contexts := [⟨"<program>", none, none, 0⟩] }

/-- Element projection into a List value: the element stored at index `i`, if
it is a non-null value. -/
def SWVal.elemAt? (v : SWVal) (i : Nat) : Option SWVal :=
  match v.payload with
  | .list l => (l.get? i).bind id
  | _ => none

/-- Test performed by `execute_idadi`:
`value instanceof SWString || value instanceof SWList`. -/
def SWPayload.isStringOrList : SWPayload → Bool
  | .str _ => true
  | .list _ => true
  | _ => false

/-- Program for the closure claim, with distinct position tokens:
`n = 1; shughuli f() { n }; shughuli g() { n = 2; f() }; g()`.
Function `f` is defined at the global scope (so its definingContext is the
global context, whose table is table 0) and reads the free name `n`; `g`
shadows `n` with 2 in its own execution scope and then calls `f`. -/
def c1program : Node :=
  .listNode [
    .varAssignNode "n" (.numberNode 1 1 2) 1 2,
    .funcDefNode (some "f") [] (.varAccessNode "n" 3 4) 3 4,
    .funcDefNode (some "g") []
      (.listNode [
        .varAssignNode "n" (.numberNode 2 5 6) 5 6,
        .callNode (.varAccessNode "f" 7 8) [] 7 9] 5 9) 5 10,
    .callNode (.varAccessNode "g" 11 12) [] 11 13] 0 14

/-- Outcome of running the closure program from the pre-populated global
environment. -/
def c1run : Outcome := visit Interpreter.new 20 c1program 0 globalStore

/-- Concrete user function for the `__hoja` claim: `shughuli f(a) { 1 }`,
bound to the global context. -/
def c2fv : SWVal := .mk (some 0) (some 1) (some 0) (.func "f" (.numberNode 1 2 3) ["a"])

/-- Single well-formed argument value for the `__hoja` claim. -/
def c2args : List (Option SWVal) := [some (.mk (some 4) (some 5) (some 0) (.number 5))]

/-- Outcome of invoking `c2fv` on `c2args` through the interpreter file's
`SWFunction.execute`. -/
def c2run : Outcome :=
  SWFunction.execute (fun I2 n c s => visit I2 5 n c s) c2fv c2args globalStore

/-- For node whose optional step expression is an unbound variable:
`kwa i = 1 mpaka 3 hatua zzz { 1 }` with `zzz` not defined anywhere. -/
def c3program : Node :=
  .forNode "i" (.numberNode 1 1 2) (.numberNode 3 3 4)
    (some (.varAccessNode "zzz" 5 6)) (.numberNode 1 7 8) 0 9

/-- If node whose single condition is a function value:
`kama (shughuli() { 1 }) { 10 } sivyo { 20 }`. -/
def c4program : Node :=
  .ifNode [(.funcDefNode none [] (.numberNode 1 1 2) 1 2, .numberNode 10 3 4)]
    (some (.numberNode 20 5 6)) 0 7

/-- Concrete user function value for the negation claim. -/
def c5funcValue : SWVal := .mk none none none (.func "f" (.numberNode 1 0 0) [])

/-- Unary `!` applied directly to a function expression:
`!(shughuli() { 1 })`. -/
def c5program : Node :=
  .unaryOpNode .NOT (.funcDefNode none [] (.numberNode 1 1 2) 1 2) 0 3

/-- Builtin value for `idadi`, bound to the global context as the access of
the global binding would produce. -/
def c8idadiValue : SWVal := .mk (some 20) (some 21) (some 0) (.builtin "idadi")

/-- String argument for `idadi("hello")`. -/
def c8helloArg : SWVal := .mk (some 6) (some 7) (some 0) (.str "hello")

/-- Number argument for `idadi(42)`. -/
def c8fortyTwoArg : SWVal := .mk (some 6) (some 7) (some 0) (.number 42)

/-- Program whose called function contains a five-iteration loop:
`shughuli f() { kwa i = 0 mpaka 5 { 1 } }; f()`. -/
def c10call : Node :=
  .listNode [
    .funcDefNode (some "f") []
      (.forNode "i" (.numberNode 0 1 2) (.numberNode 5 3 4) none (.numberNode 1 5 6) 1 7)
      1 8,
    .callNode (.varAccessNode "f" 9 10) [] 9 11] 0 12

/-- The same five-iteration loop at top level. -/
def c10loopTop : Node :=
  .forNode "i" (.numberNode 0 1 2) (.numberNode 5 3 4) none (.numberNode 1 5 6) 1 7

/-- Program whose called function contains a never-ending loop:
`shughuli f() { wakati 1 { 2 } }; f()`. -/
def c10diverge : Node :=
  .listNode [
    .funcDefNode (some "f") [] (.whileNode (.numberNode 1 1 2) (.numberNode 2 3 4) 5 6) 1 8,
    .callNode (.varAccessNode "f" 9 10) [] 9 11] 0 12

/-- Value of the called function in `c10call` as the interpreter constructs
it. -/
def c10fval : SWVal :=
  .mk (some 1) (some 8) (some 0)
    (.func "f"
      (.forNode "i" (.numberNode 0 1 2) (.numberNode 5 3 4) none (.numberNode 1 5 6) 1 7)
      [])

/-- Value produced by the call in `c10call`: the loop's list of five body
values, built in the execution context (context 1) and re-stamped with the
call site's position and context by `visitCallNode`. -/
def c10result : SWVal :=
  .mk (some 9) (some 11) (some 0)
    (.list (List.replicate 5 (some (.mk (some 5) (some 6) (some 1) (.number 1)))))

/-- Find after set: a `setSym` for `name` makes `find?` for `name` return the
new binding, whether the key existed or not. -/
theorem SymbolTable.find?_setSym (t : SymbolTable) (name : String) (v : Option SWVal) :
    (t.setSym name v).symbols.find? (fun p => p.1 == name) = some (name, v) := by
  rcases t with ⟨par, syms⟩
  unfold SymbolTable.setSym
  induction syms with
  | nil => simp
  | cons p rest ih =>
    by_cases hp : p.1 = name
    · simp [hp]
    · have hb : (p.1 == name) = false := by simp [hp]
      by_cases hr : rest.any (fun q => q.1 == name)
      · simp only [List.any_cons, hb, Bool.false_or, hr, if_true, List.map_cons,
          List.find?_cons, hb] at ih ⊢
        simpa [hb] using ih
      · simp only [List.any_cons, hb, Bool.false_or, hr, if_false, List.cons_append,
          List.find?_cons, hb] at ih ⊢
        simpa [hb] using ih

/-- Set absorbs an earlier set of the same name. -/
theorem SymbolTable.setSym_setSym (t : SymbolTable) (name : String) (v1 v2 : Option SWVal) :
    (t.setSym name v1).setSym name v2 = t.setSym name v2 := by
  rcases t with ⟨par, syms⟩
  unfold SymbolTable.setSym
  simp only
  by_cases h : syms.any (fun p => p.1 == name) = true
  · have hfun : ∀ p : String × Option SWVal,
        ((if (p.1 == name) = true then (name, v1) else p).1 == name) = (p.1 == name) := by
      intro p; by_cases hp : (p.1 == name) = true <;> simp [hp]
    have hany : (syms.map (fun p => if (p.1 == name) = true then (name, v1) else p)).any
        (fun p => p.1 == name) = true := by
      rw [List.any_map]
      simp only [Function.comp_def]
      simpa only [hfun] using h
    simp only [if_pos h, if_pos hany]
    congr 1
    rw [List.map_map]
    refine List.map_congr_left ?_
    intro p _
    by_cases hp : p.1 = name
    · simp [Function.comp_def, hp]
    · simp [Function.comp_def, hp]
  · have hfalse : ∀ p ∈ syms, (p.1 == name) = false := by
      intro p hp
      cases hx : (p.1 == name) with
      | false => rfl
      | true => exact absurd (List.any_eq_true.mpr ⟨p, hp, hx⟩) h
    have happ : ((syms ++ [(name, v1)]).any (fun p => p.1 == name)) = true := by
      simp [List.any_append]
    simp only [if_neg h, if_pos happ]
    congr 1
    have hmap : List.map (fun p : String × Option SWVal =>
        if (p.1 == name) = true then (name, v2) else p) syms = syms := by
      have hid : List.map (fun p : String × Option SWVal =>
          if (p.1 == name) = true then (name, v2) else p) syms = List.map id syms :=
        List.map_congr_left (fun p hp => by simp [hfalse p hp])
      rw [hid, List.map_id]
    rw [List.map_append, hmap]
    simp

/-- A `setVar` keeps the table count. -/
theorem Store.setVar_tables_length (st : Store) (tid : Nat) (name : String)
    (v : Option SWVal) : (st.setVar tid name v).tables.length = st.tables.length := by
  unfold Store.setVar
  cases h : st.tables[tid]? <;> simp

/-- Reading the freshly set name from the freshly set table. -/
theorem Store.getOwn_setVar_self (st : Store) (tid : Nat) (name : String)
    (v : Option SWVal) (h : tid < st.tables.length) :
    (st.setVar tid name v).getOwn tid name = some v := by
  unfold Store.setVar Store.getOwn
  rcases hg : st.tables[tid]? with _ | t
  · rw [List.getElem?_eq_none_iff] at hg; omega
  · simp [hg, List.getElem?_set_self h, SymbolTable.find?_setSym]

/-- A `setVar` into a different table does not change what another table
holds. -/
theorem Store.getOwn_setVar_ne (st : Store) (tid tid2 : Nat) (name name2 : String)
    (v : Option SWVal) (h : tid ≠ tid2) :
    (st.setVar tid2 name2 v).getOwn tid name = st.getOwn tid name := by
  unfold Store.setVar Store.getOwn
  rcases hg : st.tables[tid2]? with _ | t
  · rfl
  · simp [hg, List.getElem?_set_ne (Ne.symm h)]

/-- Set absorbs an earlier set of the same name in the same table. -/
theorem Store.setVar_setVar (st : Store) (tid : Nat) (name : String)
    (v1 v2 : Option SWVal) :
    (st.setVar tid name v1).setVar tid name v2 = st.setVar tid name v2 := by
  rcases hg : st.tables[tid]? with _ | t
  · simp [Store.setVar, hg]
  · have hlt : tid < st.tables.length := by
      by_contra hc
      rw [List.getElem?_eq_none_iff.mpr (by omega)] at hg
      exact Option.noConfusion hg
    have hg2 : (st.tables.set tid (t.setSym name v1))[tid]? = some (t.setSym name v1) :=
      List.getElem?_set_self (by simpa using hlt)
    simp [Store.setVar, hg, hg2, List.set_set, SymbolTable.setSym_setSym]

/-- While loop whose condition always registers truthy and whose body always
registers a success reaches the call-stack bound and fails with the loop
error. -/
theorem loopWhile_err (condEval bodyEval : Store → Outcome)
    (success : List (Option SWVal) → Store → Outcome) (failErr : RTError)
    (Hc : ∀ s, ∃ s2 v, condEval s = .ret s2 (.ok (some v)) ∧ v.isTrue = true)
    (Hb : ∀ s, ∃ s2 v, bodyEval s = .ret s2 (.ok v)) :
    ∀ (iterFuel remaining : Nat) (elements : List (Option SWVal)) (st : Store),
      1 ≤ remaining → remaining ≤ iterFuel →
      ∃ st2, loopWhile condEval bodyEval success failErr iterFuel remaining elements st
        = .ret st2 (.err failErr) := by
  intro iterFuel
  induction iterFuel with
  | zero => intro remaining elements st h1 h2; omega
  | succ n ih =>
    intro remaining elements st h1 h2
    obtain ⟨s1, c, hc, hct⟩ := Hc st
    obtain ⟨s2, v, hb⟩ := Hb s1
    by_cases hr : remaining = 1
    · refine ⟨s2, ?_⟩
      simp [loopWhile, hc, hct, hb, hr]
    · obtain ⟨st2, hrec⟩ := ih (remaining - 1) (elements ++ [v]) s2 (by omega) (by omega)
      refine ⟨st2, ?_⟩
      simp [loopWhile, hc, hct, hb, hr, hrec]

/-- For loop whose condition holds for at least the first `remaining`
iterates and whose body always registers a success reaches the call-stack
bound and fails with the loop error. -/
theorem loopFor_err (cond : Int → Bool) (stepValue : Int) (setV : Int → Store → Store)
    (bodyEval : Store → Outcome) (success : List (Option SWVal) → Store → Outcome)
    (failErr : RTError)
    (Hb : ∀ s, ∃ s2 v, bodyEval s = .ret s2 (.ok v)) :
    ∀ (iterFuel remaining : Nat) (i : Int) (elements : List (Option SWVal)) (st : Store),
      1 ≤ remaining → remaining ≤ iterFuel →
      (∀ k : Nat, k < remaining → cond (i + k * stepValue) = true) →
      ∃ st2, loopFor cond stepValue setV bodyEval success failErr iterFuel remaining i
          elements st
        = .ret st2 (.err failErr) := by
  intro iterFuel
  induction iterFuel with
  | zero => intro remaining i elements st h1 h2; omega
  | succ n ih =>
    intro remaining i elements st h1 h2 hcond
    have hc0 : cond i = true := by simpa using hcond 0 (by omega)
    obtain ⟨s2, v, hb⟩ := Hb (setV i st)
    by_cases hr : remaining = 1
    · refine ⟨s2, ?_⟩
      simp [loopFor, hc0, hb, hr]
    · have hcond2 : ∀ k : Nat, k < remaining - 1 → cond (i + stepValue + k * stepValue) = true := by
        intro k hk
        have := hcond (k + 1) (by omega)
        have harith : i + (k + 1 : Nat) * stepValue = i + stepValue + k * stepValue := by
          push_cast
          ring
        rwa [harith] at this
      obtain ⟨st2, hrec⟩ := ih (remaining - 1) (i + stepValue) (elements ++ [v]) s2
        (by omega) (by omega) hcond2
      refine ⟨st2, ?_⟩
      simp [loopFor, hc0, hb, hr, hrec]

/-- One-step unfolding of `loopFor` with fuel left, stated for controlled
rewriting. -/
theorem loopFor_succ (cond : Int → Bool) (stepValue : Int) (setV : Int → Store → Store)
    (bodyEval : Store → Outcome) (success : List (Option SWVal) → Store → Outcome)
    (failErr : RTError) (n remaining : Nat) (i : Int) (elements : List (Option SWVal))
    (st : Store) :
    loopFor cond stepValue setV bodyEval success failErr (n + 1) remaining i elements st
      = if cond i then
          match bodyEval (setV i st) with
          | .crash => .crash
          | .ret st2 (.err e) => .ret st2 (.err e)
          | .ret st2 (.ok v) =>
            if remaining = 1 then .ret st2 (.err failErr)
            else
              loopFor cond stepValue setV bodyEval success failErr n (remaining - 1)
                (i + stepValue) (elements ++ [v]) st2
        else success elements st := rfl

/-- For loop over `i < b` with unit step and a store-preserving constant
body: it terminates below the call-stack bound, collects one body value per
iterate, and leaves the loop variable set for the final iterate `b - 1`. -/
theorem loopFor_finish (b : Int) (setV : Int → Store → Store)
    (bodyEval : Store → Outcome) (success : List (Option SWVal) → Store → Outcome)
    (failErr : RTError) (bv : Option SWVal)
    (Hb : ∀ s, bodyEval s = .ret s (.ok bv))
    (Habs : ∀ i j s, setV i (setV j s) = setV i s) :
    ∀ (iterFuel remaining : Nat) (i : Int) (elements : List (Option SWVal)) (st : Store),
      i < b → (b - i).toNat < remaining → remaining ≤ iterFuel →
      loopFor (fun j => decide (j < b)) 1 setV bodyEval success failErr iterFuel remaining i
          elements st
        = success (elements ++ List.replicate (b - i).toNat bv) (setV (b - 1) st) := by
  intro iterFuel
  induction iterFuel with
  | zero => intro remaining i elements st h1 h2 h3; omega
  | succ n ih =>
    intro remaining i elements st h1 h2 h3
    have hcond : decide (i < b) = true := by simpa using h1
    have hr1 : ¬ remaining = 1 := by omega
    rw [loopFor_succ]
    simp only [hcond, if_true, Hb (setV i st), if_neg hr1]
    by_cases h4 : i + 1 < b
    · rw [ih (remaining - 1) (i + 1) (elements ++ [bv]) (setV i st) h4 (by omega) (by omega),
        Habs (b - 1) i st]
      have hrep : (b - i).toNat = (b - (i + 1)).toNat + 1 := by omega
      rw [List.append_assoc, hrep, List.replicate_succ]
      rfl
    · have hib : i = b - 1 := by omega
      obtain ⟨m, rfl⟩ : ∃ m, n = m + 1 := ⟨n - 1, by omega⟩
      have hcond2 : decide (i + 1 < b) = false := by simpa using h4
      have hn : (b - i).toNat = 1 := by omega
      rw [loopFor_succ]
      simp only [hcond2, Bool.false_eq_true, if_false]
      rw [hn, hib]
      rfl

/-- Argument loop of the standalone module on a fully given argument list:
every value is collected (context-updated) and the table count is
preserved. -/
theorem BaseFunctionTypes.popLoop_allSome (nullValue : Option SWVal) (ec ecTid fnTid : Nat) :
    ∀ (argNames : List String) (args : List (Option SWVal)) (st : Store),
      argNames.length = args.length → (∀ a ∈ args, a.isSome) →
      ((BaseFunctionTypes.popLoop argNames args nullValue ec ecTid fnTid st).2.map some
          = args.map (Option.map (fun v => v.setContext (some ec))))
      ∧ (BaseFunctionTypes.popLoop argNames args nullValue ec ecTid fnTid st).1.tables.length
          = st.tables.length := by
  intro argNames
  induction argNames with
  | nil =>
    intro args st hlen _
    cases args with
    | nil => simp [BaseFunctionTypes.popLoop]
    | cons a rest => simp at hlen
  | cons an ans ih =>
    intro args st hlen hsome
    cases args with
    | nil => simp at hlen
    | cons a rest =>
      obtain ⟨v, rfl⟩ : ∃ v, a = some v :=
        Option.isSome_iff_exists.mp (hsome a (by simp))
      obtain ⟨ih1, ih2⟩ := ih rest
        ((st.setVar ecTid an (some (v.setContext (some ec)))).setVar fnTid an
          (some (v.setContext (some ec))))
        (by simpa using hlen) (fun x hx => hsome x (by simp [hx]))
      constructor
      · simp only [BaseFunctionTypes.popLoop, List.tail_cons, List.map_cons]
        simp [ih1]
      · simp only [BaseFunctionTypes.popLoop, List.tail_cons]
        rw [ih2, Store.setVar_tables_length, Store.setVar_tables_length]

/-- C1 counterexample.  Running `c1program` (`n = 1; shughuli f() { n };
shughuli g() { n = 2; f() }; g()`) refutes the claim that a user function's
execution SymbolTable chains to the SymbolTable of its definingContext: `f`
is defined in the global context (context 0, whose table — shown by the
fourth conjunct — is table 0, and the stored value of `f` carries
`context = some 0`, third conjunct), yet the execution table created for the
call of `f` inside `g` is table 2 and its parent is table 1, the execution
scope of `g` (first and second conjuncts) — the access-site scope, not the
defining scope.  Behaviourally, the free name `n` in `f`'s body resolves to
the access-site binding 2 (fifth conjunct) although the defining scope still
binds `n` to 1 (sixth conjunct). -/
theorem c1_counterexample :
    c1run.store?.map (fun s => s.tables.map (fun t => t.parent)) = some [none, some 0, some 1]
    ∧ c1run.store?.bind (fun s => (s.tables[2]?).bind (fun t => t.parent)) = some 1
    ∧ (c1run.store?.bind (fun s => s.getOwn 0 "f")).map (Option.map SWVal.context)
        = some (some (some 0))
    ∧ c1run.store?.bind (fun s => (s.contexts[0]?).map (fun c => c.symbolTable)) = some 0
    ∧ (((c1run.value?.bind id).bind (fun v => v.elemAt? 3)).bind
        (fun v => v.elemAt? 1)).map SWVal.payload = some (.number 2)
    ∧ (c1run.store?.bind (fun s => s.getOwn 0 "n")).map (Option.map SWVal.payload)
        = some (some (.number 1)) :=
  ⟨rfl, rfl, rfl, rfl, rfl, rfl⟩

/-- C1 amended.  The execution context built by
`SWBaseFunction.generateNewContext` has a SymbolTable whose parent is the
symbol table of the context recorded in the callee value's own `context`
field; and `visitVarAccessNode` resets the context of every value it returns
to the access-site context.  Hence a function reached by name is executed
with the access-site scope as its lexical parent, not its defining scope. -/
theorem c1_amended :
    (∀ (fv : SWVal) (st : Store) (c : Nat) (cr : Context),
        fv.context = some c → st.contexts[c]? = some cr →
        ∃ st2, SWBaseFunction.generateNewContext fv st = some (st.contexts.length, st2) ∧
          st2.tables[st.tables.length]? = some ⟨some cr.symbolTable, []⟩ ∧
          (st2.contexts[st.contexts.length]?).map (fun k => k.symbolTable)
            = some st.tables.length) ∧
    (∀ (I : Interpreter) (fuel : Nat) (name : String) (ps pe ctxId : Nat) (st : Store)
        (cr : Context) (v : SWVal),
        st.contexts[ctxId]? = some cr →
        st.getSym st.tables.length cr.symbolTable name = some (some v) →
        visit I (fuel + 1) (.varAccessNode name ps pe) ctxId st
          = .ret st (.ok (some (.mk (some ps) (some pe) (some ctxId) v.payload)))) := by
  constructor
  · intro fv st c cr hc hcr
    refine ⟨{ tables := st.tables ++ [⟨some cr.symbolTable, []⟩],
              contexts := st.contexts ++ [⟨fv.fnName, some c, fv.posStart, st.tables.length⟩] },
      ?_, ?_, ?_⟩
    · simp [SWBaseFunction.generateNewContext, hc, hcr, Store.newTable, Store.newContext]
    · simp [SWBaseFunction.generateNewContext, hc, hcr, Store.newTable, Store.newContext,
        List.getElem?_concat_length]
    · simp [SWBaseFunction.generateNewContext, hc, hcr, Store.newTable, Store.newContext,
        List.getElem?_concat_length]
  · intro I fuel name ps pe ctxId st cr v hcr hget
    simp only [visit, hcr, hget]
    cases v with
    | mk vps vpe vc vp =>
      simp [SWVal.copy, SWVal.setPosition, SWVal.setContext, SWVal.payload]

/-- Witness for `c1_amended` at concrete inputs: the user function `c2fv`
(whose `context` is the global context 0) gets an execution table whose
parent is the global table 0, and a variable access of `kweli` at context 0
returns the Boolean rebound to the access-site context. -/
theorem c1_amended_witness :
    (∃ st2, SWBaseFunction.generateNewContext c2fv globalStore = some (1, st2) ∧
      st2.tables[1]? = some ⟨some 0, []⟩ ∧
      (st2.contexts[1]?).map (fun k => k.symbolTable) = some 1) ∧
    visit Interpreter.new 1 (.varAccessNode "kweli" 5 6) 0 globalStore
      = .ret globalStore (.ok (some (.mk (some 5) (some 6) (some 0)
          (SWVal.mk none none none (.boolean true)).payload))) :=
  ⟨c1_amended.1 c2fv globalStore 0 ⟨"<program>", none, none, 0⟩ rfl rfl,
    c1_amended.2 Interpreter.new 0 "kweli" 5 6 0 globalStore ⟨"<program>", none, none, 0⟩
      (.mk none none none (.boolean true)) rfl rfl⟩

/-- C2 counterexample.  Invoking the user function `c2fv` on the single
argument `c2args` through the interpreter file's `SWFunction.execute` passes
the arity check and evaluates the body (first conjunct: the body value comes
back), binds the declared parameter `a` in the execution scope (table 1,
third conjunct) — but leaves `__hoja` unbound there (second conjunct),
refuting the claim that every invocation binds `__hoja` before the body
runs. -/
theorem c2_counterexample :
    c2run.value? = some (some (.mk (some 2) (some 3) (some 1) (.number 1)))
    ∧ c2run.store?.bind (fun s => s.getOwn 1 "__hoja") = none
    ∧ c2run.store?.bind (fun s => s.getOwn 1 "a")
        = some (some (.mk (some 4) (some 5) (some 1) (.number 5))) :=
  ⟨rfl, rfl, rfl⟩

/-- C2 amended.  The `populateArgs` of the standalone base-function module
does bind `__hoja`: on a call with matching arity and well-formed argument
values it ends with `__hoja` bound in the execution context's symbol table to
a fresh List of all given argument values (each re-bound to the execution
context); the interpreter file's own call protocol, by contrast, binds only
the named parameters (see the counterexample). -/
theorem c2_amended :
    ∀ (argNames : List String) (args : List (Option SWVal)) (ec ecTid fnTid : Nat)
      (st : Store),
      argNames.length = args.length → (∀ a ∈ args, a.isSome) →
      ecTid < st.tables.length →
      (BaseFunctionTypes.populateArgs argNames args ec ecTid fnTid false st).getOwn ecTid
          "__hoja"
        = some (some (.mk none none none
            (.list (args.map (Option.map (fun v => v.setContext (some ec))))))) := by
  intro argNames args ec ecTid fnTid st hlen hsome hlt
  obtain ⟨h1, h2⟩ :=
    BaseFunctionTypes.popLoop_allSome none ec ecTid fnTid argNames args st hlen hsome
  have hallLen :
      (BaseFunctionTypes.popLoop argNames args none ec ecTid fnTid st).2.length
        = args.length := by
    have := congrArg List.length h1
    simpa using this
  unfold BaseFunctionTypes.populateArgs
  rcases hps : BaseFunctionTypes.popLoop argNames args none ec ecTid fnTid st with ⟨st1, allArgs⟩
  rw [hps] at h1 h2 hallLen
  dsimp only at h1 h2 hallLen
  simp only [Bool.false_eq_true, if_false, hps]
  have hdrop : args.drop allArgs.length = [] := by
    rw [hallLen]
    exact List.drop_length args
  rw [hdrop]
  simp only [List.filterMap_nil, List.append_nil, h1]
  by_cases hfe : fnTid = ecTid
  · subst hfe
    rw [Store.setVar_setVar]
    exact Store.getOwn_setVar_self _ _ _ _ (by omega)
  · rw [Store.getOwn_setVar_ne _ _ _ _ _ _ (fun he => hfe he.symm)]
    exact Store.getOwn_setVar_self _ _ _ _ (by omega)

/-- Witness for `c2_amended`: populating `a := Number 5` for execution
context 5 over the global table binds `__hoja` to the fresh one-element
list. -/
theorem c2_amended_witness :
    (BaseFunctionTypes.populateArgs ["a"] c2args 5 0 0 false globalStore).getOwn 0 "__hoja"
      = some (some (.mk none none none
          (.list (c2args.map (Option.map (fun v => v.setContext (some 5))))))) :=
  c2_amended ["a"] c2args 5 0 0 globalStore rfl
    (by intro a ha; simp [c2args] at ha; subst ha; rfl) (by decide)

/-- C3 (code bug).  In `visitForNode` the evaluation of the optional step
expression is the one sub-evaluation not followed by `if (res.error) return
res;`: with an unbound step variable the visitor registers the UnboundName
error (second conjunct shows what evaluating the step expression alone
produces) and then dereferences the null registered value
(`stepValue.value`), throwing a host TypeError — modelled as `crash` —
instead of returning the error (first conjunct). -/
theorem c3_for_step_error_crashes :
    visit Interpreter.new 5 c3program 0 globalStore = .crash
    ∧ visit Interpreter.new 5 (.varAccessNode "zzz" 5 6) 0 globalStore
        = .ret globalStore (.err ⟨some 5, some 6,
            "\x27zzz\x27 is not defined", some 0⟩) :=
  ⟨rfl, rfl⟩

/-- C4 counterexample.  Concrete user-function and built-in values are falsy:
`isTrue` returns `false`, not `true` as claimed. -/
theorem c4_counterexample :
    (SWVal.mk none none none (.func "f" (.numberNode 1 0 0) [])).isTrue = false
    ∧ (SWVal.mk none none none (.builtin "andika")).isTrue = false :=
  ⟨rfl, rfl⟩

/-- C4 amended.  Every user Function value and every BuiltinFunction value is
falsy — the interpreter file's function classes inherit the base
`SWValue.isTrue`, which returns `false` — so a function value used as an
IfNode condition does not select that case: the concrete
`kama (shughuli() { 1 }) { 10 } sivyo { 20 }` returns the else value 20. -/
theorem c4_amended :
    (∀ (ps pe cx : Option Nat) (name : String) (bodyN : Node) (argNames : List String),
      (SWVal.mk ps pe cx (.func name bodyN argNames)).isTrue = false)
    ∧ (∀ (ps pe cx : Option Nat) (name : String),
      (SWVal.mk ps pe cx (.builtin name)).isTrue = false)
    ∧ (visit Interpreter.new 5 c4program 0 globalStore).value?.map (Option.map SWVal.payload)
        = some (some (.number 20)) :=
  ⟨fun _ _ _ _ _ _ => rfl, fun _ _ _ _ => rfl, rfl⟩

/-- C5 (code bug).  The base `SWValue.notted` — the implementation unary `!`
reaches for function values, which have no override — returns
`[null, this.illegalOperation(other)]` although its own doc comment promises
the negated truthiness, and `other` is not a name in scope there, so the call
throws a ReferenceError: applying `notted` to a function value crashes
(first conjunct), as does evaluating `!(shughuli() { 1 })` (second
conjunct); a Number operand, by contrast, round-trips through double
negation to the Boolean of its truthiness (third and fourth conjuncts). -/
theorem c5_notted_function_crashes :
    c5funcValue.notted = .crash
    ∧ visit Interpreter.new 5 c5program 0 globalStore = .crash
    ∧ (SWVal.mk none none none (.number 5)).notted
        = .pair (some (.mk none none none (.boolean false))) none
    ∧ (SWVal.mk none none none (.boolean false)).notted
        = .pair (some (.mk none none none (.boolean true))) none :=
  ⟨rfl, rfl, rfl, rfl⟩

/-- C6.  Both loop visitors enforce the per-activation iteration counter: a
for loop (default step) whose numeric condition stays true for the first
`maxCallStackSize` iterates, and a while loop whose condition keeps
registering truthy, fail — provided each body evaluation registers a success
— with the error `Max call stack size exceeded` positioned at the loop's
`posStart..posEnd`, after `maxCallStackSize` body evaluations; and the
interpreter constructor sets that bound to 10000. -/
theorem c6_loop_iteration_bound :
    (∀ (I : Interpreter) (fuel : Nat) (varName : String) (a b : Int)
        (sp1 sp2 ep1 ep2 ps pe ctxId : Nat) (bodyN : Node) (st : Store) (cr : Context),
        1 ≤ I.maxCallStackSize →
        st.contexts[ctxId]? = some cr →
        (∀ k : Nat, k < I.maxCallStackSize → a + k < b) →
        (∀ s, ∃ s2 v, visit I (fuel + 1) bodyN ctxId s = .ret s2 (.ok v)) →
        ∃ st2, visit I (fuel + 2)
            (.forNode varName (.numberNode a sp1 sp2) (.numberNode b ep1 ep2) none bodyN
              ps pe) ctxId st
          = .ret st2 (.err ⟨some ps, some pe, "Max call stack size exceeded", some ctxId⟩))
    ∧ (∀ (I : Interpreter) (fuel : Nat) (condN bodyN : Node) (ps pe ctxId : Nat)
        (st : Store),
        1 ≤ I.maxCallStackSize →
        (∀ s, ∃ s2 v, visit I fuel condN ctxId s = .ret s2 (.ok (some v)) ∧ v.isTrue = true) →
        (∀ s, ∃ s2 v, visit I fuel bodyN ctxId s = .ret s2 (.ok v)) →
        ∃ st2, visit I (fuel + 1) (.whileNode condN bodyN ps pe) ctxId st
          = .ret st2 (.err ⟨some ps, some pe, "Max call stack size exceeded", some ctxId⟩))
    ∧ Interpreter.new.maxCallStackSize = 10000 := by
  refine ⟨?_, ?_, rfl⟩
  · intro I fuel varName a b sp1 sp2 ep1 ep2 ps pe ctxId bodyN st cr hmax hcr hcond hbody
    have hget : ∀ k (p q : Nat), visit I (fuel + 1) (.numberNode k p q) ctxId st
        = .ret st (.ok (some (.mk (some p) (some q) (some ctxId) (.number k)))) :=
      fun k p q => rfl
    simp only [visit, hget, hcr]
    have hstep : ((1 : Int) ≥ 0) = True := by norm_num
    simp only [hstep, if_true]
    exact loopFor_err _ 1 _ _ _ _ hbody (I.maxCallStackSize + 1) I.maxCallStackSize a [] st
      hmax (by omega)
      (fun k hk => by
        have := hcond k hk
        simp only [mul_one, decide_eq_true_eq]
        omega)
  · intro I fuel condN bodyN ps pe ctxId st hmax hcond hbody
    simp only [visit]
    exact loopWhile_err _ _ _ _ hcond hbody (I.maxCallStackSize + 1) I.maxCallStackSize [] st
      hmax (by omega)

/-- Witness for `c6_loop_iteration_bound`: `kwa i = 0 mpaka 20000 { 7 }` and
`wakati 1 { 7 }`, both under the default interpreter from the global context,
fail with the call-stack error at the loop's position. -/
theorem c6_loop_iteration_bound_witness :
    (∃ st2, visit Interpreter.new 2
        (.forNode "i" (.numberNode 0 1 2) (.numberNode 20000 3 4) none (.numberNode 7 7 8)
          9 10) 0 globalStore
      = .ret st2 (.err ⟨some 9, some 10, "Max call stack size exceeded", some 0⟩))
    ∧ (∃ st2, visit Interpreter.new 2
        (.whileNode (.numberNode 1 1 2) (.numberNode 7 3 4) 5 6) 0 globalStore
      = .ret st2 (.err ⟨some 5, some 6, "Max call stack size exceeded", some 0⟩)) :=
  ⟨c6_loop_iteration_bound.1 Interpreter.new 0 "i" 0 20000 1 2 3 4 9 10 0 (.numberNode 7 7 8)
      globalStore ⟨"<program>", none, none, 0⟩ (by decide) rfl
      (fun k hk => by
        have hk10 : k < 10000 := hk
        omega)
      (fun s => ⟨s, some (.mk (some 7) (some 8) (some 0) (.number 7)), rfl⟩),
    c6_loop_iteration_bound.2.1 Interpreter.new 1 (.numberNode 1 1 2) (.numberNode 7 3 4)
      5 6 0 globalStore (by decide)
      (fun s => ⟨s, .mk (some 1) (some 2) (some 0) (.number 1), rfl, rfl⟩)
      (fun s => ⟨s, some (.mk (some 3) (some 4) (some 0) (.number 7)), rfl⟩)⟩

/-- Shape of `generateNewContext` on a callee whose context is valid: the
fresh execution context (id = current context count) gets a fresh symbol
table (id = current table count) whose parent is the symbol table of the
value's context. -/
theorem generateNewContext_eq (fv : SWVal) (st : Store) (c : Nat) (cr : Context)
    (hc : fv.context = some c) (hcr : st.contexts[c]? = some cr) :
    SWBaseFunction.generateNewContext fv st
      = some (st.contexts.length,
          { tables := st.tables ++ [⟨some cr.symbolTable, []⟩],
            contexts := st.contexts ++ [⟨fv.fnName, some c, fv.posStart, st.tables.length⟩] }) := by
  simp [SWBaseFunction.generateNewContext, hc, hcr, Store.newTable, Store.newContext]

/-- Failure shape of `checkArgs` under an arity mismatch. -/
theorem checkArgs_ne (fv : SWVal) (argNames : List String) (args : List (Option SWVal))
    (h : args.length ≠ argNames.length) :
    SWBaseFunction.checkArgs fv argNames args
      = some ⟨fv.posStart, fv.posEnd,
          (if argNames.length < args.length then
              toString (args.length - argNames.length) ++ " too many args passed into "
                ++ fv.fnName
            else
              toString (argNames.length - args.length) ++ " too few args passed into "
                ++ fv.fnName),
          fv.context⟩ := by
  unfold SWBaseFunction.checkArgs
  by_cases h1 : argNames.length < args.length
  · simp [h1]
  · have h2 : args.length < argNames.length := by omega
    simp [h1, h2]

/-- C7.  A call with the wrong number of arguments fails — for user functions
under any body visitor (so the body is never evaluated) and for built-ins
(before the host handler is dispatched) — with an error at the callee
value's own `posStart..posEnd` whose message counts the surplus or missing
arguments, distinguishes the two directions, and names the function; the
store ends exactly as `generateNewContext` left it. -/
theorem c7_arity_mismatch :
    (∀ (ps pe : Option Nat) (c : Nat) (name : String) (bodyN : Node)
        (argNames : List String) (args : List (Option SWVal)) (st : Store) (cr : Context),
        st.contexts[c]? = some cr →
        args.length ≠ argNames.length →
        ∀ visitF, SWFunction.execute visitF
            (.mk ps pe (some c) (.func name bodyN argNames)) args st
          = .ret { tables := st.tables ++ [⟨some cr.symbolTable, []⟩],
                   contexts := st.contexts ++ [⟨name, some c, ps, st.tables.length⟩] }
              (.err ⟨ps, pe,
                (if argNames.length < args.length then
                    toString (args.length - argNames.length) ++ " too many args passed into "
                      ++ name
                  else
                    toString (argNames.length - args.length) ++ " too few args passed into "
                      ++ name),
                some c⟩))
    ∧ (∀ (ps pe : Option Nat) (c : Nat) (bname : String) (bargs : List String)
        (args : List (Option SWVal)) (st : Store) (cr : Context),
        st.contexts[c]? = some cr →
        builtinParams bname = some bargs →
        args.length ≠ bargs.length →
        SWBuiltInFunction.execute (.mk ps pe (some c) (.builtin bname)) args st
          = .ret { tables := st.tables ++ [⟨some cr.symbolTable, []⟩],
                   contexts := st.contexts ++ [⟨bname, some c, ps, st.tables.length⟩] }
              (.err ⟨ps, pe,
                (if bargs.length < args.length then
                    toString (args.length - bargs.length) ++ " too many args passed into "
                      ++ bname
                  else
                    toString (bargs.length - args.length) ++ " too few args passed into "
                      ++ bname),
                some c⟩)) := by
  constructor
  · intro ps pe c name bodyN argNames args st cr hcr hne visitF
    have hgen := generateNewContext_eq (.mk ps pe (some c) (.func name bodyN argNames))
      st c cr rfl hcr
    have hchk := checkArgs_ne (.mk ps pe (some c) (.func name bodyN argNames))
      argNames args hne
    simp [SWFunction.execute, SWVal.payload, hgen, hchk, SWVal.posStart, SWVal.posEnd,
      SWVal.context, SWVal.fnName]
  · intro ps pe c bname bargs args st cr hcr hbp hne
    have hgen := generateNewContext_eq (.mk ps pe (some c) (.builtin bname)) st c cr rfl hcr
    have hchk := checkArgs_ne (.mk ps pe (some c) (.builtin bname)) bargs args hne
    simp [SWBuiltInFunction.execute, SWVal.payload, hgen, hbp, hchk, SWVal.posStart,
      SWVal.posEnd, SWVal.context, SWVal.fnName]

/-- Witness for `c7_arity_mismatch`: calling `shughuli f(a) { 1 }` with no
arguments, and `idadi` with no arguments, both fail naming the function and
counting one missing argument, and the function body and host handler are
not reached (the user-function result is the same for the trivial crash
visitor). -/
theorem c7_arity_mismatch_witness :
    SWFunction.execute (fun _ _ _ _ => Outcome.crash) c2fv [] globalStore
      = .ret { tables := globalStore.tables ++ [⟨some 0, []⟩],
               contexts := globalStore.contexts ++ [⟨"f", some 0, some 0, 1⟩] }
          (.err ⟨some 0, some 1, "1 too few args passed into f", some 0⟩)
    ∧ SWBuiltInFunction.execute c8idadiValue [] globalStore
      = .ret { tables := globalStore.tables ++ [⟨some 0, []⟩],
               contexts := globalStore.contexts ++ [⟨"idadi", some 0, some 20, 1⟩] }
          (.err ⟨some 20, some 21, "1 too few args passed into idadi", some 0⟩) :=
  ⟨c7_arity_mismatch.1 (some 0) (some 1) 0 "f" (.numberNode 1 2 3) ["a"] [] globalStore
      ⟨"<program>", none, none, 0⟩ rfl (by decide) (fun _ _ _ _ => Outcome.crash),
    c7_arity_mismatch.2 (some 20) (some 21) 0 "idadi" ["value"] [] globalStore
      ⟨"<program>", none, none, 0⟩ rfl rfl (by decide)⟩

/-- C8.  `execute_idadi` maps a String value of `value` to the Number of its
code-unit length and a List value to the Number of its element count, and
fails on every other variant with `Cannot find length of non-iterable value`
at the value's position; concretely, the full built-in call `idadi("hello")`
returns Number 5 and `idadi(42)` fails with that message. -/
theorem c8_idadi :
    (∀ (ec : Nat) (st : Store) (cr : Context) (ps pe cx : Option Nat) (s : String),
        st.contexts[ec]? = some cr →
        st.getSym st.tables.length cr.symbolTable "value"
          = some (some (.mk ps pe cx (.str s))) →
        SWBuiltInFunction.execute_idadi ec st
          = .ret st (.ok (some (.mk none none none (.number s.length)))))
    ∧ (∀ (ec : Nat) (st : Store) (cr : Context) (ps pe cx : Option Nat)
        (l : List (Option SWVal)),
        st.contexts[ec]? = some cr →
        st.getSym st.tables.length cr.symbolTable "value"
          = some (some (.mk ps pe cx (.list l))) →
        SWBuiltInFunction.execute_idadi ec st
          = .ret st (.ok (some (.mk none none none (.number l.length)))))
    ∧ (∀ (ec : Nat) (st : Store) (cr : Context) (v : SWVal),
        st.contexts[ec]? = some cr →
        st.getSym st.tables.length cr.symbolTable "value" = some (some v) →
        v.payload.isStringOrList = false →
        SWBuiltInFunction.execute_idadi ec st
          = .ret st (.err ⟨v.posStart, v.posEnd,
              "Cannot find length of non-iterable value", some ec⟩))
    ∧ (SWBuiltInFunction.execute c8idadiValue [some c8helloArg] globalStore).value?
        = some (some (.mk none none none (.number 5)))
    ∧ (SWBuiltInFunction.execute c8idadiValue [some c8fortyTwoArg] globalStore).error?
        = some ⟨some 6, some 7, "Cannot find length of non-iterable value", some 1⟩ := by
  refine ⟨?_, ?_, ?_, rfl, rfl⟩
  · intro ec st cr ps pe cx s hcr hget
    simp [SWBuiltInFunction.execute_idadi, hcr, hget, SWVal.payload]
  · intro ec st cr ps pe cx l hcr hget
    simp [SWBuiltInFunction.execute_idadi, hcr, hget, SWVal.payload]
  · intro ec st cr v hcr hget hni
    rcases v with ⟨ps, pe, cx, pl⟩
    cases pl <;> simp_all [SWBuiltInFunction.execute_idadi, SWVal.payload,
      SWPayload.isStringOrList, SWVal.posStart, SWVal.posEnd]

/-- Witness for `c8_idadi` at concrete inputs: a two-character String, a
two-element List and a Boolean bound as `value` in a one-table store. -/
theorem c8_idadi_witness :
    (SWBuiltInFunction.execute_idadi 0
        { tables := [⟨none, [("value", some (.mk none none none (.str "ab")))]⟩],
          contexts := [⟨"x", none, none, 0⟩] }
      = .ret { tables := [⟨none, [("value", some (.mk none none none (.str "ab")))]⟩],
               contexts := [⟨"x", none, none, 0⟩] }
          (.ok (some (.mk none none none (.number ("ab").length)))))
    ∧ (SWBuiltInFunction.execute_idadi 0
        { tables := [⟨none, [("value", some (.mk none none none (.list [none, none])))]⟩],
          contexts := [⟨"x", none, none, 0⟩] }
      = .ret { tables := [⟨none, [("value", some (.mk none none none (.list [none, none])))]⟩],
               contexts := [⟨"x", none, none, 0⟩] }
          (.ok (some (.mk none none none (.number ([none, none] : List (Option SWVal)).length)))))
    ∧ (SWBuiltInFunction.execute_idadi 0
        { tables := [⟨none, [("value", some (.mk (some 3) (some 4) none (.boolean true)))]⟩],
          contexts := [⟨"x", none, none, 0⟩] }
      = .ret { tables := [⟨none, [("value", some (.mk (some 3) (some 4) none (.boolean true)))]⟩],
               contexts := [⟨"x", none, none, 0⟩] }
          (.err ⟨some 3, some 4, "Cannot find length of non-iterable value", some 0⟩)) :=
  ⟨c8_idadi.1 0 _ ⟨"x", none, none, 0⟩ none none none "ab" rfl rfl,
    c8_idadi.2.1 0 _ ⟨"x", none, none, 0⟩ none none none [none, none] rfl rfl,
    c8_idadi.2.2.1 0 _ ⟨"x", none, none, 0⟩ (.mk (some 3) (some 4) none (.boolean true))
      rfl rfl rfl⟩

/-- C9.  A for loop over Number literals `a..b` (default step, constant
Number body) with at least one and fewer than `maxCallStackSize` iterations
binds the loop variable in the invoking context's own symbol table: the
final store is exactly the starting store with that one binding set to the
Number of the final executed iterate `b - 1` (overwriting whatever the table
held for that name before), the loop value is the list of the per-iteration
body values, and after completion the binding is still present in that same
table. -/
theorem c9_for_binds_in_invoking_scope :
    ∀ (I : Interpreter) (fuel : Nat) (varName : String) (a b c : Int)
      (p1 p2 p3 p4 p5 p6 ps pe ctxId : Nat) (st : Store) (cr : Context),
      st.contexts[ctxId]? = some cr →
      cr.symbolTable < st.tables.length →
      a < b →
      (b - a).toNat < I.maxCallStackSize →
      (visit I (fuel + 2)
          (.forNode varName (.numberNode a p1 p2) (.numberNode b p3 p4) none
            (.numberNode c p5 p6) ps pe) ctxId st
        = .ret (st.setVar cr.symbolTable varName
              (some (.mk none none none (.number (b - 1)))))
            (.ok (some (.mk (some ps) (some pe) (some ctxId)
              (.list (List.replicate (b - a).toNat
                (some (.mk (some p5) (some p6) (some ctxId) (.number c)))))))))
      ∧ (st.setVar cr.symbolTable varName
            (some (.mk none none none (.number (b - 1))))).getOwn cr.symbolTable varName
          = some (some (.mk none none none (.number (b - 1)))) := by
  intro I fuel varName a b c p1 p2 p3 p4 p5 p6 ps pe ctxId st cr hcr hlt hab hmax
  constructor
  · have hget : ∀ (k : Int) (p q : Nat) (s : Store),
        visit I (fuel + 1) (.numberNode k p q) ctxId s
          = .ret s (.ok (some (.mk (some p) (some q) (some ctxId) (.number k)))) :=
      fun k p q s => rfl
    have hfin := loopFor_finish b
      (fun i s => s.setVar cr.symbolTable varName (some (.mk none none none (.number i))))
      (fun s => .ret s (.ok (some (.mk (some p5) (some p6) (some ctxId) (.number c)))))
      (fun elems s =>
        .ret s (.ok (some (.mk (some ps) (some pe) (some ctxId) (.list elems)))))
      ⟨some ps, some pe, "Max call stack size exceeded", some ctxId⟩
      (some (.mk (some p5) (some p6) (some ctxId) (.number c)))
      (fun s => rfl)
      (fun i j s => Store.setVar_setVar s cr.symbolTable varName _ _)
      (I.maxCallStackSize + 1) I.maxCallStackSize a [] st hab (by omega) (by omega)
    simp only [visit, hget, hcr, SWVal.payload]
    have hstep : ((1 : Int) ≥ 0) = True := by norm_num
    simp only [hstep, if_true]
    rw [hfin]
    simp
  · exact Store.getOwn_setVar_self st cr.symbolTable varName _ hlt

/-- Witness for `c9_for_binds_in_invoking_scope`:
`kwa i = 0 mpaka 3 { 7 }` from the global context ends with `i` bound to
Number 2 in the global table itself, returning the three body values. -/
theorem c9_for_binds_in_invoking_scope_witness :
    (visit Interpreter.new 2
        (.forNode "i" (.numberNode 0 1 2) (.numberNode 3 3 4) none (.numberNode 7 5 6) 7 8)
        0 globalStore
      = .ret (globalStore.setVar 0 "i" (some (.mk none none none (.number 2))))
          (.ok (some (.mk (some 7) (some 8) (some 0)
            (.list (List.replicate 3 (some (.mk (some 5) (some 6) (some 0) (.number 7)))))))))
    ∧ (globalStore.setVar 0 "i" (some (.mk none none none (.number 2)))).getOwn 0 "i"
        = some (some (.mk none none none (.number 2))) :=
  c9_for_binds_in_invoking_scope Interpreter.new 0 "i" 0 3 7 1 2 3 4 5 6 7 8 0 globalStore
    ⟨"<program>", none, none, 0⟩ rfl (by decide) (by decide) (by decide)

/-- C10.  `SWFunction.execute` always constructs a brand-new `Interpreter`
for the body.  First conjunct: a called function whose body is a
five-iteration loop succeeds with all five collected values under an
invoking interpreter of any `maxCallStackSize` whatsoever — even one smaller
than the iteration count.  Second conjunct: the invoking bound does govern a
top-level loop (the same loop fails under bound 3).  Third conjunct: a called
function whose body is `wakati 1 { 2 }` fails with the fresh interpreter's
own default bound — the call-stack error arises inside the execution
context, independent of the caller's visitor fuel and of everything except
the fresh `Interpreter.new`. -/
theorem c10_fresh_interpreter_bound :
    (∀ n : Nat, ((visit ⟨n⟩ 20 c10call 0 globalStore).value?.bind id).bind
        (fun v => v.elemAt? 1) = some c10result)
    ∧ (visit ⟨3⟩ 20 c10loopTop 0 globalStore).error?
        = some ⟨some 1, some 7, "Max call stack size exceeded", some 0⟩
    ∧ (∀ (fuel : Nat) (ps pe : Option Nat) (cx : Nat) (st : Store) (cr : Context)
        (name : String) (wps wpe np1 np2 np3 np4 : Nat),
        st.contexts[cx]? = some cr →
        ∃ st2, SWFunction.execute (fun I2 nd c2 s => visit I2 (fuel + 2) nd c2 s)
            (.mk ps pe (some cx)
              (.func name
                (.whileNode (.numberNode 1 np1 np2) (.numberNode 2 np3 np4) wps wpe) []))
            [] st
          = .ret st2 (.err ⟨some wps, some wpe, "Max call stack size exceeded",
              some st.contexts.length⟩)) := by
  refine ⟨fun n => rfl, rfl, ?_⟩
  intro fuel ps pe cx st cr name wps wpe np1 np2 np3 np4 hcr
  have hgen := generateNewContext_eq
    (.mk ps pe (some cx)
      (.func name (.whileNode (.numberNode 1 np1 np2) (.numberNode 2 np3 np4) wps wpe) []))
    st cx cr rfl hcr
  obtain ⟨st2, hw⟩ := loopWhile_err
    (fun s => .ret s (.ok (some (.mk (some np1) (some np2) (some st.contexts.length)
      (.number 1)))))
    (fun s => .ret s (.ok (some (.mk (some np3) (some np4) (some st.contexts.length)
      (.number 2)))))
    (fun elems s => .ret s (.ok (some (.mk (some wps) (some wpe)
      (some st.contexts.length) (.list elems)))))
    ⟨some wps, some wpe, "Max call stack size exceeded", some st.contexts.length⟩
    (fun s => ⟨s, .mk (some np1) (some np2) (some st.contexts.length) (.number 1), rfl, rfl⟩)
    (fun s => ⟨s, some (.mk (some np3) (some np4) (some st.contexts.length) (.number 2)),
      rfl⟩)
    (Interpreter.new.maxCallStackSize + 1) Interpreter.new.maxCallStackSize []
    ({ tables := st.tables ++ [⟨some cr.symbolTable, []⟩],
       contexts := st.contexts ++ [⟨name, some cx, ps, st.tables.length⟩] } : Store)
    (by decide) (by omega)
  refine ⟨st2, ?_⟩
  have hecr : ({ tables := st.tables ++ [⟨some cr.symbolTable, []⟩],
                 contexts := st.contexts ++ [⟨name, some cx, ps, st.tables.length⟩] } :
        Store).contexts[st.contexts.length]?
      = some ⟨name, some cx, ps, st.tables.length⟩ := by
    simp [List.getElem?_concat_length]
  simp only [SWVal.fnName, SWVal.posStart] at hgen
  simp only [SWFunction.execute, SWVal.payload, hgen, SWBaseFunction.checkArgs,
    SWBaseFunction.populateArgs, hecr, visit, hw]
  simp
